import Mathlib

/-!
Verification development for the tigate maintainer core.

The development shallowly embeds the Go sources:
  * `SchemaStore` — `versionedTableInfoStore` (`getTableInfo`, `gc`, `doApplyDDL`).
  * `OpCtl` — the operator controller (`AddOperator`, `pollQueueingOperator`,
    `removeReplicaSet`).
  * `Sup` — the supervisor admission logic (`Supervisor.Schedule`,
    `checkRunningTasks`, the scheduler chain).
  * `Barrier` — the block-event coordinator, modelled from the spec where the
    repository ships only the tests of that code.

Go maps are embedded as association lists with the usual lookup / insert /
delete operations; `log.Panic` / `log.Fatal` paths are embedded as `Except`
errors or `Option.none` so that aborting executions are visible in the result.
-/

namespace GoMap

variable {K V : Type} [DecidableEq K]

/-- Lookup in an association list embedding a Go map. -/
def mapLookup : List (K × V) → K → Option V
  | [], _ => none
  | p :: rest, k => if p.1 = k then some p.2 else mapLookup rest k

/-- Insert (or replace) a binding, the semantics of a Go `m[k] = v`. -/
def mapInsert : List (K × V) → K → V → List (K × V)
  | [], k, v => [(k, v)]
  | p :: rest, k, v => if p.1 = k then (k, v) :: rest else p :: mapInsert rest k v

/-- Delete a key, the semantics of a Go `delete(m, k)`. -/
def mapDelete : List (K × V) → K → List (K × V)
  | [], _ => []
  | p :: rest, k => if p.1 = k then mapDelete rest k else p :: mapDelete rest k

/-- Keys of the association list. -/
def mapKeys (m : List (K × V)) : List K := m.map Prod.fst

end GoMap

namespace SchemaStore

/-- Embedding of Go's `math.MaxUint64`, the "not deleted" sentinel of
`versionedTableInfoStore.deleteVersion`. -/
def maxUint64 : Nat := 2 ^ 64 - 1

/-- Embedding of `common.TableInfo` as far as the schemastore manipulates it:
`WrapTableInfo(schemaID, schemaName, finishedTs, tableInfo)` packs these fields. -/
structure TableInfo where
  schemaID : Int
  schemaName : String
  version : Nat
  raw : Nat
deriving DecidableEq, Repr

/-- Embedding of `common.WrapTableInfo`. -/
def WrapTableInfo (schemaID : Int) (schemaName : String) (finishedTs : Nat) (raw : Nat) :
    TableInfo :=
  { schemaID := schemaID, schemaName := schemaName, version := finishedTs, raw := raw }

/-- Embedding of `tableInfoItem`. -/
structure TableInfoItem where
  version : Nat
  info : TableInfo
deriving DecidableEq, Repr

/-- Embedding of the `model.ActionType` constructors the store dispatches on. -/
inductive ActionType
  | createTable
  | renameTable
  | addColumn
  | dropColumn
  | dropTable
  | truncateTable
  | otherAction
deriving DecidableEq, Repr

/-- Embedding of `PersistedDDLEvent` restricted to the fields `doApplyDDL` reads. -/
structure PersistedDDLEvent where
  eventType : ActionType
  SchemaID : Int
  SchemaName : String
  Query : String
  FinishedTs : Nat
  TableInfoRaw : Nat
deriving DecidableEq, Repr

/-- Embedding of `versionedTableInfoStore` (the mutex and the `readyToRead`
channel are concurrency plumbing and carry no data). -/
structure VersionedTableInfoStore where
  tableID : Int
  infos : List TableInfoItem
  deleteVersion : Nat
  initialized : Bool
  pendingDDLs : List PersistedDDLEvent
deriving DecidableEq, Repr

/-- Error outcomes of `getTableInfo`; the `log.Panic` on an uninitialized store
is embedded as an explicit error value. -/
inductive TableInfoErr
  | panicNotInitialized
  | deleted
  | noVersionFound
deriving DecidableEq, Repr

/-- Embedding of the `sort.Search`/index part of `getTableInfo`: `target` is the
smallest index whose version exceeds `ts` (Go's `sort.Search` contract), and the
item just before it is returned. -/
def lookupInfo (infos : List TableInfoItem) (ts : Nat) : Except TableInfoErr TableInfo :=
  if infos.findIdx (fun it => decide (ts < it.version)) = 0 then .error .noVersionFound
  else
    match infos[infos.findIdx (fun it => decide (ts < it.version)) - 1]? with
    | some item => .ok item.info
    | none => .error .noVersionFound

/-- Embedding of `versionedTableInfoStore.getTableInfo`. -/
def getTableInfo (v : VersionedTableInfoStore) (ts : Nat) : Except TableInfoErr TableInfo :=
  if v.initialized = false then .error .panicNotInitialized
  else if v.deleteVersion ≤ ts then .error .deleted
  else lookupInfo v.infos ts

/-- Embedding of `versionedTableInfoStore.gc`; the `log.Fatal` on an empty
initialized store becomes `none`. -/
def gc (v : VersionedTableInfoStore) (gcTs : Nat) : Option VersionedTableInfoStore :=
  if v.initialized = false then some v
  else if v.infos.length = 0 then none
  else if v.infos.findIdx (fun it => decide (gcTs < it.version)) = 0 then some v
  else some { v with
    infos := v.infos.drop (v.infos.findIdx (fun it => decide (gcTs < it.version)) - 1) }

/-- Version of the last applied item, `v.infos[len(v.infos)-1].version`. -/
def lastItemVersion (infos : List TableInfoItem) : Nat :=
  match infos.getLast? with
  | some item => item.version
  | none => 0

/-- Embedding of `versionedTableInfoStore.doApplyDDL`; every `log.Panic` path
(including the asserts) is an `.error`, so an aborting run is visible. -/
def doApplyDDL (v : VersionedTableInfoStore) (event : PersistedDDLEvent) :
    Except String VersionedTableInfoStore :=
  if v.infos.length ≠ 0 ∧ event.FinishedTs ≤ lastItemVersion v.infos then
    .error "ddl job finished ts should be monotonically increasing"
  else if v.infos.length > 0 ∧ event.FinishedTs ≤ lastItemVersion v.infos then
    .ok v
  else
    match event.eventType with
    | .createTable =>
      if v.infos.length = 1 then .ok v
      else if v.infos.length ≠ 0 then .error "shouldn't happen"
      else .ok { v with infos := v.infos ++
        [⟨event.FinishedTs,
          WrapTableInfo event.SchemaID event.SchemaName event.FinishedTs event.TableInfoRaw⟩] }
    | .renameTable | .addColumn | .dropColumn =>
      if v.infos.length = 0 then .error "shouldn't happen"
      else .ok { v with infos := v.infos ++
        [⟨event.FinishedTs,
          WrapTableInfo event.SchemaID event.SchemaName event.FinishedTs event.TableInfoRaw⟩] }
    | .dropTable | .truncateTable => .ok { v with deleteVersion := event.FinishedTs }
    | .otherAction => .ok v

/-- Concrete two-version store used by the witnesses of the store theorems. -/
def demoStore : VersionedTableInfoStore :=
  { tableID := 1,
    infos := [⟨5, WrapTableInfo 1 "db" 5 0⟩, ⟨10, WrapTableInfo 1 "db" 10 1⟩],
    deleteVersion := maxUint64,
    initialized := true,
    pendingDDLs := [] }

end SchemaStore

namespace OpCtl

/-- Embedding of `common.DispatcherID`, a 128-bit value in two 64-bit halves. -/
structure DispatcherID where
  high : Nat
  low : Nat
deriving DecidableEq, Repr

/-- Kinds of operators handled by the controller (`add`, `remove`, `move`,
`split`); `removeReplicaSet` always installs a remove operator. -/
inductive OperatorKind
  | addKind
  | removeKind
  | moveKind
  | splitKind
deriving DecidableEq, Repr

/-- Embedding of a value implementing the `Operator` interface: the claims only
need its identity (`ID()`), its kind, and a tag distinguishing instances;
behaviour entry points (`Start`, `PostFinish`, `OnTaskRemoved`) are recorded as
effects, and `IsFinished` is a parameter of the execution step. -/
structure Operator where
  opId : DispatcherID
  kind : OperatorKind
  tag : Nat
deriving DecidableEq, Repr

/-- Calls the controller makes into operators, recorded as a trace. -/
inductive OpEffect
  | start (op : Operator)
  | onTaskRemoved (op : Operator)
  | postFinish (op : Operator)
deriving DecidableEq, Repr

/-- Embedding of the controller state: the `operators` Go map as an association
list, the priority queue as a bag of `(operator, nextRunAt)` entries popped by
minimal time, and the replication DB abstracted to the set of DispatcherIDs for
which `GetTaskByID` returns a span. -/
structure OCState where
  operators : List (DispatcherID × Operator)
  runningQueue : List (Operator × Nat)
  dbSpans : List DispatcherID
deriving DecidableEq, Repr

/-- Embedding of `Controller.AddOperator`: reject a duplicate id, reject an id
the replication DB does not know, otherwise install, `Start`, and push on the
running queue stamped `time.Now()`. -/
def AddOperator (oc : OCState) (op : Operator) (now : Nat) :
    OCState × List OpEffect × Bool :=
  if (GoMap.mapLookup oc.operators op.opId).isSome then (oc, [], false)
  else if ¬ op.opId ∈ oc.dbSpans then (oc, [], false)
  else
    ({ oc with operators := GoMap.mapInsert oc.operators op.opId op,
               runningQueue := oc.runningQueue ++ [(op, now)] },
     [.start op], true)

/-- Embedding of `Controller.removeReplicaSet`: when an operator with the same
id is live, call its `OnTaskRemoved`, delete it, then install the remove
operator. -/
def removeReplicaSet (oc : OCState) (op : Operator) : OCState × List OpEffect :=
  match GoMap.mapLookup oc.operators op.opId with
  | some old =>
    ({ oc with operators :=
        GoMap.mapInsert (GoMap.mapDelete oc.operators op.opId) op.opId op },
     [.onTaskRemoved old])
  | none =>
    ({ oc with operators := GoMap.mapInsert oc.operators op.opId op }, [])

/-- Pop the minimal-time entry of the running queue (the heap pop). -/
def popMin : List (Operator × Nat) → Option ((Operator × Nat) × List (Operator × Nat))
  | [] => none
  | x :: xs =>
    match popMin xs with
    | none => some (x, [])
    | some (m, rest) => if x.2 ≤ m.2 then some (x, xs) else some (m, x :: rest)

/-- Embedding of `Controller.pollQueueingOperator`: pop the top entry; a
finished operator gets `PostFinish` and leaves the map; a not-yet-due entry is
pushed back and the poll stops; otherwise the entry is re-stamped 500 ms later
and the operator is returned for scheduling. -/
def pollQueueingOperator (oc : OCState) (now : Nat) (fin : Operator → Bool) :
    OCState × List OpEffect × Option Operator × Bool :=
  match popMin oc.runningQueue with
  | none => (oc, [], none, false)
  | some (item, rest) =>
    if fin item.1 then
      ({ oc with operators := GoMap.mapDelete oc.operators item.1.opId,
                 runningQueue := rest },
       [.postFinish item.1], none, true)
    else if now < item.2 then
      ({ oc with runningQueue := item :: rest }, [], none, false)
    else
      ({ oc with runningQueue := rest ++ [(item.1, now + 500)] }, [], some item.1, true)

/-- Invariant of C3: the operators map binds each DispatcherID at most once. -/
def OCInv (oc : OCState) : Prop := (GoMap.mapKeys oc.operators).Nodup

instance (oc : OCState) : Decidable (OCInv oc) := by
  unfold OCInv
  infer_instance

end OpCtl

namespace OpCtl

/-- Concrete ids and operators for the controller witnesses. -/
def demoId1 : DispatcherID := ⟨1, 1⟩

def demoId2 : DispatcherID := ⟨2, 2⟩

def demoOpOld : Operator := ⟨demoId1, .addKind, 0⟩

def demoOpRemove : Operator := ⟨demoId1, .removeKind, 1⟩

def demoOpNew : Operator := ⟨demoId2, .addKind, 2⟩

/-- Concrete controller holding one live operator, for the witnesses. -/
def demoOC : OCState :=
  { operators := [(demoId1, demoOpOld)],
    runningQueue := [(demoOpOld, 0)],
    dbSpans := [demoId1, demoId2] }

end OpCtl

namespace Sup

/-- Status values of the supervisor state machines (`scheduler.SchedulerStatus`). -/
inductive SchedulerStatus
  | absentStatus
  | commitStatus
  | workingStatus
  | removingStatus
deriving DecidableEq, Repr

/-- Embedding of a supervisor state machine as `checkRunningTasks` reads it:
its status, whether `HasRemoved()` holds, and the message
`GetSchedulingMessage()` returns. -/
structure StateMachine where
  state : SchedulerStatus
  removed : Bool
  schedulingMessage : Option Nat
deriving DecidableEq, Repr

/-- Modelled from the spec: a registered worker and whether its bootstrap has
returned; the `CaptureStatus` type is not part of the provided sources. -/
structure CaptureStatus where
  capId : String
  initialized : Bool
deriving DecidableEq, Repr

/-- Embedding of the supervisor state read by `Schedule`; the schedulers are
abstract functions from the task budget to the produced tasks, since the
concrete scheduler implementations are not part of the provided sources. -/
structure Supervisor where
  captures : List CaptureStatus
  initialized : Bool
  stateMachines : List (String × StateMachine)
  runningTasks : List String
  maxTaskConcurrency : Nat
  schedulers : List (Nat → List Nat)

/-- Embedding of `Supervisor.checkRunningTasks`: collect each running task's
scheduling message and delete tasks that are finished (no state machine found,
machine removed, or machine Working). -/
def checkRunningTasks (s : Supervisor) : Supervisor × List Nat :=
  let msgs := s.runningTasks.filterMap (fun id =>
    match GoMap.mapLookup s.stateMachines id with
    | some m => m.schedulingMessage
    | none => none)
  let remaining := s.runningTasks.filter (fun id =>
    match GoMap.mapLookup s.stateMachines id with
    | some m => !(m.removed || decide (m.state = SchedulerStatus.workingStatus))
    | none => false)
  ({ s with runningTasks := remaining }, msgs)

/-- Modelled from the spec: `allCapturesInitialized` holds when every
registered worker has returned its bootstrap (`CheckAllCaptureInitialized` is
not part of the provided sources). -/
def checkAllCaptureInitialized (s : Supervisor) : Bool :=
  s.initialized && s.captures.all (fun c => c.initialized)

/-- Embedding of `Supervisor.schedule`: the first scheduler in the chain
returning a non-empty task list wins. -/
def scheduleChain : List (Nat → List Nat) → Nat → List Nat
  | [], _ => []
  | f :: rest, maxTaskCount =>
    if (f maxTaskCount).length ≠ 0 then f maxTaskCount else scheduleChain rest maxTaskCount

/-- Embedding of `Supervisor.Schedule`: run `checkRunningTasks`, skip
scheduling when not all captures are initialized or the task budget
`maxTaskConcurrency - len(RunningTasks)` is non-positive, otherwise run the
scheduler chain; the triple is the supervisor after `checkRunningTasks`, the
running-task control messages (the Go return value), and the tasks handed to
`handleScheduleTasks`. -/
def Schedule (s : Supervisor) : Supervisor × List Nat × List Nat :=
  let s1 := (checkRunningTasks s).1
  let msgs := (checkRunningTasks s).2
  if checkAllCaptureInitialized s1 = false then (s1, msgs, [])
  else if (s1.maxTaskConcurrency : Int) - (s1.runningTasks.length : Int) ≤ 0 then
    (s1, msgs, [])
  else (s1, msgs, scheduleChain s1.schedulers (s1.maxTaskConcurrency - s1.runningTasks.length))

/-- Concrete supervisor for the C9 witness: one initialized capture, one
running Working task, budget 2, and a chain whose first scheduler is empty. -/
def demoSup : Supervisor :=
  { captures := [⟨"n1", true⟩],
    initialized := true,
    stateMachines := [("t1", ⟨SchedulerStatus.workingStatus, false, some 42⟩)],
    runningTasks := ["t1"],
    maxTaskConcurrency := 2,
    schedulers := [fun _ => [], fun n => [n]] }

/-- The demo supervisor after `checkRunningTasks` removed the Working task. -/
def demoSup1 : Supervisor := { demoSup with runningTasks := [] }

end Sup

namespace Barrier

/-- Embedding of `heartbeatpb.InfluenceType` (All, DB, Normal). -/
inductive InfluenceType
  | allType
  | dbType
  | normalType
deriving DecidableEq, Repr

/-- Embedding of `heartbeatpb.InfluencedTables`. -/
structure InfluencedTables where
  influenceType : InfluenceType
  TableIDs : List Int
  SchemaID : Int
deriving DecidableEq, Repr

/-- Embedding of `heartbeatpb.Table` (TableID, SchemaID). -/
structure PBTable where
  TableID : Int
  SchemaID : Int
deriving DecidableEq, Repr

/-- Embedding of `heartbeatpb.SchemaIDChange`. -/
structure SchemaIDChange where
  TableID : Int
  OldSchemaID : Int
  NewSchemaID : Int
deriving DecidableEq, Repr

/-- Embedding of `heartbeatpb.State` as the barrier reads it. -/
structure BState where
  IsBlocked : Bool
  BlockTs : Nat
  BlockTables : Option InfluencedTables
  NeedDroppedTables : Option InfluencedTables
  NeedAddedTables : List PBTable
  UpdatedSchemas : List SchemaIDChange
deriving DecidableEq, Repr

/-- Classification of a span, spec section 3: absent, scheduling, or working. -/
inductive SpanStatus
  | absentSpan
  | schedulingSpan
  | workingSpan
deriving DecidableEq, Repr

/-- Modelled from the spec: a `SpanReplication` record of the replication DB
(section 3); the replication DB sources are not in the provided tree. -/
structure SpanReplication where
  spanId : Nat
  tableID : Int
  schemaID : Int
  nodeID : String
  status : SpanStatus
  checkpointTs : Nat
deriving DecidableEq, Repr

/-- Modelled from the spec: the maintainer controller with its replication DB;
`nextId` allocates fresh dispatcher ids for new spans. -/
structure ControllerState where
  spans : List SpanReplication
  nextId : Nat
deriving DecidableEq, Repr

/-- Modelled from the spec: `Controller.AddNewTable` inserts an absent span for
the table with the given start timestamp. -/
def AddNewTable (c : ControllerState) (schemaID tableID : Int) (startTs : Nat) :
    ControllerState :=
  { spans := c.spans ++ [{ spanId := c.nextId, tableID := tableID, schemaID := schemaID,
                           nodeID := "", status := SpanStatus.absentSpan,
                           checkpointTs := startTs }],
    nextId := c.nextId + 1 }

/-- Modelled from the spec: `GetAbsentSize` counts the spans in the absent set. -/
def GetAbsentSize (c : ControllerState) : Nat :=
  (c.spans.filter (fun sp => decide (sp.status = SpanStatus.absentSpan))).length

/-- Modelled from the spec: `GetTasksBySchemaID`, the by-schema reverse index. -/
def GetTasksBySchemaID (c : ControllerState) (schemaID : Int) : List SpanReplication :=
  c.spans.filter (fun sp => decide (sp.schemaID = schemaID))

/-- Modelled from the spec: `GetTasksByTableIDs` for one table, the by-table
reverse index. -/
def GetTasksByTableID (c : ControllerState) (tableID : Int) : List SpanReplication :=
  c.spans.filter (fun sp => decide (sp.tableID = tableID))

/-- Modelled from the spec: `UpdateSchemaID` atomically reindexes the spans of
the table under the new schema id. -/
def UpdateSchemaID (c : ControllerState) (tableID newSchemaID : Int) : ControllerState :=
  { c with spans := c.spans.map (fun sp =>
      if sp.tableID = tableID then { sp with schemaID := newSchemaID } else sp) }

/-- Modelled from the spec: `TryRemoveAll` drains every span. -/
def TryRemoveAll (c : ControllerState) : ControllerState := { c with spans := [] }

/-- Modelled from the spec: `TryRemoveBySchemaID` removes the schema's spans. -/
def TryRemoveBySchemaID (c : ControllerState) (schemaID : Int) : ControllerState :=
  { c with spans := c.spans.filter (fun sp => decide (¬ sp.schemaID = schemaID)) }

/-- Modelled from the spec: `TryRemoveByTableIDs` removes the tables' spans. -/
def TryRemoveByTableIDs (c : ControllerState) (tables : List Int) : ControllerState :=
  { c with spans := c.spans.filter (fun sp => decide (¬ sp.tableID ∈ tables)) }

/-- Modelled from the spec: dropping the tables of a block event dispatches on
the influence type (All drains everything, DB a schema, Normal listed tables). -/
def dropTables (c : ControllerState) (inf : Option InfluencedTables) : ControllerState :=
  match inf with
  | none => c
  | some i =>
    match i.influenceType with
    | InfluenceType.allType => TryRemoveAll c
    | InfluenceType.dbType => TryRemoveBySchemaID c i.SchemaID
    | InfluenceType.normalType => TryRemoveByTableIDs c i.TableIDs

/-- Modelled from the spec: `scheduleBlockEvent` applies the structural changes
of a block event; drops are executed first, then the added tables are inserted
absent with the block timestamp as start, then schema updates reindex. -/
def scheduleBlockEvent (c : ControllerState) (state : BState) : ControllerState :=
  let afterDrop := dropTables c state.NeedDroppedTables
  let afterAdd := state.NeedAddedTables.foldl
    (fun acc t => AddNewTable acc t.SchemaID t.TableID state.BlockTs) afterDrop
  state.UpdatedSchemas.foldl
    (fun acc u => UpdateSchemaID acc u.TableID u.NewSchemaID) afterAdd

/-- Embedding of `heartbeatpb.Action` (Write, Pass). -/
inductive BAction
  | writeAction
  | passAction
deriving DecidableEq, Repr

/-- Embedding of `heartbeatpb.DispatcherAction`. -/
structure DispatcherAction where
  action : BAction
  CommitTs : Nat
deriving DecidableEq, Repr

/-- Embedding of `heartbeatpb.InfluencedDispatchers`. -/
structure InfluencedDispatchers where
  influenceType : InfluenceType
  DispatcherIDs : List Nat
  SchemaID : Int
deriving DecidableEq, Repr

/-- Embedding of `heartbeatpb.DispatcherStatus`. -/
structure DispatcherStatus where
  influencedDispatchers : InfluencedDispatchers
  action : Option DispatcherAction
deriving DecidableEq, Repr

/-- Embedding of `heartbeatpb.HeartBeatResponse`. -/
structure HeartBeatResponse where
  changefeedID : String
  dispatcherStatuses : List DispatcherStatus
deriving DecidableEq, Repr

/-- Modelled from the spec: the per-event barrier state with the resend flags
(section 3); the barrier event sources are not in the provided tree. -/
structure BlockEvent where
  cfID : String
  blockTs : Nat
  blockTables : InfluencedTables
  selected : Bool
  writerDispatcherAdvanced : Bool
  writerDispatcher : Nat
  lastResendTime : Nat
deriving DecidableEq, Repr

/-- The 500 ms resend window of the resend policy. -/
def resendInterval : Nat := 500

/-- Modelled from the spec: `resend` of a block event (section 4.4 resend
policy): nothing before phase 1 (`selected = false`) or inside the resend
window; one Write to the writer while its ack is outstanding; after the writer
advanced, one pass broadcast reusing the original influence type and
enumerating dispatcher ids only for Normal influence. -/
def resend (now : Nat) (c : ControllerState) (e : BlockEvent) : List HeartBeatResponse :=
  if e.selected = false then []
  else if now < e.lastResendTime + resendInterval then []
  else if e.writerDispatcherAdvanced = false then
    [{ changefeedID := e.cfID,
       dispatcherStatuses := [{
         influencedDispatchers := { influenceType := InfluenceType.normalType,
                                    DispatcherIDs := [e.writerDispatcher],
                                    SchemaID := 0 },
         action := some { action := BAction.writeAction, CommitTs := e.blockTs } }] }]
  else
    [{ changefeedID := e.cfID,
       dispatcherStatuses := [{
         influencedDispatchers :=
           match e.blockTables.influenceType with
           | InfluenceType.normalType =>
             { influenceType := InfluenceType.normalType,
               DispatcherIDs := e.blockTables.TableIDs.flatMap
                 (fun tid => (GetTasksByTableID c tid).map (fun sp => sp.spanId)),
               SchemaID := e.blockTables.SchemaID }
           | t =>
             { influenceType := t, DispatcherIDs := [], SchemaID := e.blockTables.SchemaID },
         action := some { action := BAction.passAction, CommitTs := e.blockTs } }] }]

end Barrier

namespace Barrier

/-- Controller of scenario S1 after `AddNewTable(schemaID=1, tableID=1)`. -/
def s1Controller : ControllerState := AddNewTable { spans := [], nextId := 0 } 1 1 1

/-- Block event of S1: drop All, add tables (2,1) and (3,1). -/
def s1Event : BState :=
  { IsBlocked := true, BlockTs := 10,
    BlockTables := none,
    NeedDroppedTables := some ⟨InfluenceType.allType, [], 0⟩,
    NeedAddedTables := [⟨2, 1⟩, ⟨3, 1⟩],
    UpdatedSchemas := [] }

/-- Block event of S2: drop schema 1, add table (4,1). -/
def s2Event : BState :=
  { IsBlocked := true, BlockTs := 10,
    BlockTables := none,
    NeedDroppedTables := some ⟨InfluenceType.dbType, [], 1⟩,
    NeedAddedTables := [⟨4, 1⟩],
    UpdatedSchemas := [] }

/-- Block event of S6: update table 1 from schema 1 to schema 2. -/
def s6Event : BState :=
  { IsBlocked := true, BlockTs := 10,
    BlockTables := some ⟨InfluenceType.allType, [], 0⟩,
    NeedDroppedTables := none,
    NeedAddedTables := [],
    UpdatedSchemas := [⟨1, 1, 2⟩] }

/-- Controller of the resend witness: spans for tables 1 and 2 of schema 1,
working on node1. -/
def resendController : ControllerState :=
  { spans := [⟨0, 1, 1, "node1", SpanStatus.workingSpan, 1⟩,
              ⟨1, 2, 1, "node1", SpanStatus.workingSpan, 1⟩],
    nextId := 2 }

/-- Block event of the resend witness: Normal influence over tables 1 and 2,
selected, writer already advanced. -/
def resendEvent : BlockEvent :=
  { cfID := "test", blockTs := 10,
    blockTables := ⟨InfluenceType.normalType, [1, 2], 1⟩,
    selected := true, writerDispatcherAdvanced := true,
    writerDispatcher := 0, lastResendTime := 0 }

end Barrier

namespace GoMap

variable {K V : Type} [DecidableEq K]

@[simp] theorem mapKeys_nil : mapKeys ([] : List (K × V)) = [] := rfl

@[simp] theorem mapKeys_cons (p : K × V) (rest : List (K × V)) :
    mapKeys (p :: rest) = p.1 :: mapKeys rest := rfl

theorem mapKeys_insert_mem (m : List (K × V)) (k : K) (v : V) :
    ∀ x ∈ mapKeys (mapInsert m k v), x = k ∨ x ∈ mapKeys m := by
  induction m with
  | nil => intro x hx; simp [mapInsert] at hx; simp [hx]
  | cons p rest ih =>
    intro x hx
    by_cases h : p.1 = k
    · rw [mapInsert] at hx
      simp only [h, if_pos, mapKeys_cons, List.mem_cons] at hx
      rcases hx with h1 | h2
      · exact Or.inl h1
      · exact Or.inr (by simp [List.mem_cons]; exact Or.inr h2)
    · rw [mapInsert] at hx
      simp only [h, if_neg, ite_false, mapKeys_cons, List.mem_cons] at hx
      rcases hx with h1 | h2
      · exact Or.inr (by simp [h1])
      · rcases ih x h2 with h3 | h4
        · exact Or.inl h3
        · exact Or.inr (by simp [List.mem_cons]; exact Or.inr h4)

theorem mapKeys_insert_nodup (m : List (K × V)) (k : K) (v : V)
    (h : (mapKeys m).Nodup) : (mapKeys (mapInsert m k v)).Nodup := by
  induction m with
  | nil => simp [mapInsert]
  | cons p rest ih =>
    rw [mapKeys_cons, List.nodup_cons] at h
    by_cases hpk : p.1 = k
    · rw [mapInsert]
      simp only [hpk, if_pos, mapKeys_cons, List.nodup_cons]
      exact ⟨by rw [← hpk]; exact h.1, h.2⟩
    · rw [mapInsert]
      simp only [hpk, ite_false, mapKeys_cons, List.nodup_cons]
      refine ⟨?_, ih h.2⟩
      intro hmem
      rcases mapKeys_insert_mem rest k v p.1 hmem with h1 | h2
      · exact hpk h1
      · exact h.1 h2

theorem mapKeys_delete_sublist (m : List (K × V)) (k : K) :
    (mapKeys (mapDelete m k)).Sublist (mapKeys m) := by
  induction m with
  | nil => simp [mapDelete]
  | cons p rest ih =>
    by_cases h : p.1 = k
    · rw [mapDelete]
      simp only [h, if_pos, mapKeys_cons]
      exact (ih).trans (List.sublist_cons_self _ _)
    · rw [mapDelete]
      simp only [h, ite_false, mapKeys_cons]
      exact ih.cons₂ _

theorem mapKeys_delete_nodup (m : List (K × V)) (k : K)
    (h : (mapKeys m).Nodup) : (mapKeys (mapDelete m k)).Nodup :=
  (mapKeys_delete_sublist m k).nodup h

theorem mapLookup_insert_self (m : List (K × V)) (k : K) (v : V) :
    mapLookup (mapInsert m k v) k = some v := by
  induction m with
  | nil => simp [mapInsert, mapLookup]
  | cons p rest ih =>
    by_cases h : p.1 = k
    · simp [mapInsert, h, mapLookup]
    · simp [mapInsert, h, mapLookup, ih]

theorem mapLookup_delete_self (m : List (K × V)) (k : K) :
    mapLookup (mapDelete m k) k = none := by
  induction m with
  | nil => simp [mapDelete, mapLookup]
  | cons p rest ih =>
    by_cases h : p.1 = k
    · simp [mapDelete, h, ih]
    · simp [mapDelete, h, mapLookup, ih]

end GoMap


/-- C8: the claim says a DDL event whose FinishedTs is at most the version of
the last applied DDL is idempotently ignored with a log and the apply succeeds
without panicking; on the code every such event hits the `log.Panic`
monotonicity check before the (dead) ignore branch, so the apply aborts. -/
theorem doApplyDDL_panics_on_stale_ddl (v : SchemaStore.VersionedTableInfoStore)
    (event : SchemaStore.PersistedDDLEvent) (hne : v.infos ≠ [])
    (hts : event.FinishedTs ≤ SchemaStore.lastItemVersion v.infos) :
    SchemaStore.doApplyDDL v event =
      .error "ddl job finished ts should be monotonically increasing" := by
  have hlen : v.infos.length ≠ 0 := by
    simpa [List.length_eq_zero] using hne
  unfold SchemaStore.doApplyDDL
  rw [if_pos ⟨hlen, hts⟩]

/-- Concrete failing input for C8: a store whose last applied version is 10
receives a DDL with FinishedTs 5 and the apply panics instead of ignoring. -/
theorem doApplyDDL_panics_on_stale_ddl_witness :
    SchemaStore.doApplyDDL
      { tableID := 1,
        infos := [⟨10, SchemaStore.WrapTableInfo 1 "db" 10 0⟩],
        deleteVersion := SchemaStore.maxUint64,
        initialized := true,
        pendingDDLs := [] }
      { eventType := .addColumn, SchemaID := 1, SchemaName := "db",
        Query := "alter table t add column c int", FinishedTs := 5, TableInfoRaw := 1 } =
      .error "ddl job finished ts should be monotonically increasing" :=
  doApplyDDL_panics_on_stale_ddl _ _ (by decide) (by decide)

/-- Helper: if the first `k` elements of `xs` all fail `p`, searching the whole
list is searching the suffix shifted by `k`. -/
theorem findIdx_drop_add {α : Type} (xs : List α) (p : α → Bool) (k : Nat)
    (hk : k ≤ xs.length)
    (h : ∀ i (hi : i < k), p (xs.get ⟨i, Nat.lt_of_lt_of_le hi hk⟩) = false) :
    xs.findIdx p = k + (xs.drop k).findIdx p := by
  induction xs generalizing k with
  | nil =>
    have : k = 0 := Nat.le_zero.mp hk
    simp [this]
  | cons x tl ih =>
    cases k with
    | zero => simp
    | succ k' =>
      have hx : p x = false := h 0 (Nat.succ_pos k')
      have hk' : k' ≤ tl.length := Nat.le_of_succ_le_succ hk
      have h' : ∀ i (hi : i < k'), p (tl.get ⟨i, Nat.lt_of_lt_of_le hi hk'⟩) = false := by
        intro i hi
        have := h (i + 1) (Nat.succ_lt_succ hi)
        simpa using this
      rw [List.findIdx_cons, hx]
      simp only [cond_false, List.drop_succ_cons]
      rw [ih k' hk' h']
      omega

/-- Helper for C10: dropping the elements strictly before the boundary element
found by the gc search does not change lookups at or beyond the gc timestamp. -/
theorem lookupInfo_drop (infos : List SchemaStore.TableInfoItem) (gcTs ts : Nat)
    (hts : gcTs ≤ ts)
    (h0 : infos.findIdx (fun it => decide (gcTs < it.version)) ≠ 0) :
    SchemaStore.lookupInfo
      (infos.drop (infos.findIdx (fun it => decide (gcTs < it.version)) - 1)) ts =
    SchemaStore.lookupInfo infos ts := by
  set pg : SchemaStore.TableInfoItem → Bool := fun it => decide (gcTs < it.version) with hpg
  set pt : SchemaStore.TableInfoItem → Bool := fun it => decide (ts < it.version) with hpt
  set t := infos.findIdx pg with ht
  have ht1 : 1 ≤ t := Nat.one_le_iff_ne_zero.mpr h0
  have htle : t ≤ infos.length := ht ▸ List.findIdx_le_length pg
  have hklt : t - 1 < infos.length := by omega
  have hpre : ∀ i (hi : i < t), pt (infos.get ⟨i, Nat.lt_of_lt_of_le hi htle⟩) = false := by
    intro i hi
    have hgfalse : pg (infos.get ⟨i, Nat.lt_of_lt_of_le hi htle⟩) = false :=
      List.not_of_lt_findIdx (p := pg) (i := i) (show i < infos.findIdx pg by omega)
    simp only [hpg, decide_eq_false_iff_not, Nat.not_lt] at hgfalse
    simp only [hpt, decide_eq_false_iff_not, Nat.not_lt]
    omega
  have hboundary : pt (infos.get ⟨t - 1, hklt⟩) = false := hpre (t - 1) (by omega)
  have hdrop_cons : infos.drop (t - 1) = infos.get ⟨t - 1, hklt⟩ :: infos.drop t := by
    rw [List.drop_eq_getElem_cons hklt]
    congr 2
    omega
  have hdpos : 1 ≤ (infos.drop (t - 1)).findIdx pt := by
    rw [hdrop_cons, List.findIdx_cons, hboundary]
    simp
  have hsplit : infos.findIdx pt = (t - 1) + (infos.drop (t - 1)).findIdx pt :=
    findIdx_drop_add infos pt (t - 1) (by omega) (fun i hi => hpre i (by omega))
  unfold SchemaStore.lookupInfo
  rw [← hpt]
  rw [if_neg (by omega : ¬ (infos.drop (t - 1)).findIdx pt = 0)]
  rw [if_neg (by omega : ¬ infos.findIdx pt = 0)]
  have hscrut : (infos.drop (t - 1))[(infos.drop (t - 1)).findIdx pt - 1]? =
      infos[infos.findIdx pt - 1]? := by
    rw [List.getElem?_drop, hsplit]
    congr 1
    omega
  rw [hscrut]

/-- C10: for an initialized, non-empty versioned table-info store, `gc(gcTs)`
keeps a suffix starting at the item with the largest version at most gcTs, never
empties the store, and `getTableInfo(ts)` is unchanged for every ts at or above
gcTs. -/
theorem gc_preserves_getTableInfo (v : SchemaStore.VersionedTableInfoStore) (gcTs ts : Nat)
    (hinit : v.initialized = true) (hne : v.infos ≠ []) (hts : gcTs ≤ ts) :
    ∃ v', SchemaStore.gc v gcTs = some v' ∧ v'.infos ≠ [] ∧
      (∃ k, v'.infos = v.infos.drop k) ∧
      SchemaStore.getTableInfo v' ts = SchemaStore.getTableInfo v ts := by
  have hlen : v.infos.length ≠ 0 := by simpa [List.length_eq_zero] using hne
  by_cases h0 : v.infos.findIdx (fun it => decide (gcTs < it.version)) = 0
  · exact ⟨v, by simp [SchemaStore.gc, hinit, hlen, h0], hne, ⟨0, by simp⟩, rfl⟩
  · refine ⟨{ v with infos := (v.infos.drop (v.infos.findIdx (fun it => decide (gcTs < it.version)) - 1)) }, ?_, ?_, ⟨_, rfl⟩, ?_⟩
    · simp [SchemaStore.gc, hinit, hlen, h0]
    · have htle : v.infos.findIdx (fun it => decide (gcTs < it.version)) ≤ v.infos.length :=
        List.findIdx_le_length _
      show ¬ (v.infos.drop (v.infos.findIdx (fun it => decide (gcTs < it.version)) - 1) = [])
      rw [List.drop_eq_nil_iff]
      omega
    · show SchemaStore.getTableInfo _ ts = _
      unfold SchemaStore.getTableInfo
      by_cases hdel : v.deleteVersion ≤ ts
      · simp [hinit, hdel]
      · simp [hinit, hdel, lookupInfo_drop v.infos gcTs ts hts h0]

/-- Concrete instantiation for C10: gc at 12 on a two-version store keeps the
version-10 item and getTableInfo at 12 is unchanged. -/
theorem gc_preserves_getTableInfo_witness :
    ∃ v', SchemaStore.gc SchemaStore.demoStore 12 = some v' ∧ v'.infos ≠ [] ∧
      (∃ k, v'.infos = SchemaStore.demoStore.infos.drop k) ∧
      SchemaStore.getTableInfo v' 12 =
        SchemaStore.getTableInfo SchemaStore.demoStore 12 :=
  gc_preserves_getTableInfo SchemaStore.demoStore 12 12 rfl (by decide) (by decide)

/-- C7: for an initialized versioned table-info store with strictly increasing
versions, getTableInfo(ts) is the deleted error when the delete version is at
most ts, the no-version error when every stored version exceeds ts, and
otherwise the stored info with the largest version at most ts. -/
theorem getTableInfo_returns_largest_le (v : SchemaStore.VersionedTableInfoStore) (ts : Nat)
    (hinit : v.initialized = true)
    (hsort : v.infos.Pairwise (fun a b => a.version < b.version)) :
    (v.deleteVersion ≤ ts → SchemaStore.getTableInfo v ts = .error .deleted) ∧
    (ts < v.deleteVersion →
      ((∀ it ∈ v.infos, ts < it.version) →
        SchemaStore.getTableInfo v ts = .error .noVersionFound) ∧
      (∀ it0 ∈ v.infos, it0.version ≤ ts →
        ∃ best, best ∈ v.infos ∧ best.version ≤ ts ∧
          SchemaStore.getTableInfo v ts = .ok best.info ∧
          ∀ other ∈ v.infos, other.version ≤ ts → other.version ≤ best.version)) := by
  constructor
  · intro hdel
    simp [SchemaStore.getTableInfo, hinit, hdel]
  · intro hdel
    have hget : SchemaStore.getTableInfo v ts = SchemaStore.lookupInfo v.infos ts := by
      simp [SchemaStore.getTableInfo, hinit, Nat.not_le.mpr hdel]
    constructor
    · intro hall
      have h0 : v.infos.findIdx (fun it => decide (ts < it.version)) = 0 := by
        cases hl : v.infos with
        | nil => simp
        | cons a rest =>
          have ha : ts < a.version := hall a (by simp [hl])
          rw [List.findIdx_cons]
          simp [ha]
      rw [hget]
      simp [SchemaStore.lookupInfo, h0]
    · intro it0 hmem hle
      set pt : SchemaStore.TableInfoItem → Bool := fun it => decide (ts < it.version) with hpt
      set t := v.infos.findIdx pt with ht
      have ht1 : 1 ≤ t := by
        cases hl : v.infos with
        | nil => rw [hl] at hmem; simp at hmem
        | cons a rest =>
          have hav : a.version ≤ ts := by
            rcases List.mem_cons.mp (hl ▸ hmem) with h | h
            · rw [← h]; exact hle
            · have := (List.pairwise_cons.mp (hl ▸ hsort)).1 it0 h
              omega
          rw [ht, hl, List.findIdx_cons]
          have : pt a = false := by simp [hpt, Nat.not_lt.mpr hav]
          simp [this]
      have htle : t ≤ v.infos.length := ht ▸ List.findIdx_le_length pt
      have hklt : t - 1 < v.infos.length := by omega
      have hpg : ∀ (i j : Nat) (hi : i < v.infos.length) (hj : j < v.infos.length),
          i < j → (v.infos.get ⟨i, hi⟩).version < (v.infos.get ⟨j, hj⟩).version := by
        intro i j hi hj hij
        simpa using List.pairwise_iff_getElem.mp hsort i j hi hj hij
      refine ⟨v.infos.get ⟨t - 1, hklt⟩, List.get_mem _ _ _, ?_, ?_, ?_⟩
      · have hfalse : pt (v.infos.get ⟨t - 1, hklt⟩) = false :=
          List.not_of_lt_findIdx (p := pt) (i := t - 1)
            (show t - 1 < v.infos.findIdx pt by omega)
        simpa [hpt, Nat.not_lt] using hfalse
      · rw [hget]
        unfold SchemaStore.lookupInfo
        rw [← hpt, ← ht]
        rw [if_neg (by omega : ¬ t = 0)]
        simp [List.getElem?_eq_getElem hklt]
      · intro other hom hole
        obtain ⟨j, hj, hje⟩ := List.mem_iff_getElem.mp hom
        have hje2 : v.infos.get ⟨j, hj⟩ = other := by simpa using hje
        by_cases hjt : j < t
        · rcases Nat.lt_or_ge j (t - 1) with hlt | hge
          · have := hpg j (t - 1) hj hklt hlt
            rw [← hje2]
            omega
          · have hjeq : j = t - 1 := by omega
            subst hjeq
            rw [← hje2]
        · have hlt2 : t < v.infos.length := by omega
          have hptt : pt (v.infos.get ⟨t, hlt2⟩) = true := by
            have hw : v.infos.findIdx pt < v.infos.length := by omega
            have := List.findIdx_getElem (w := hw)
            simpa [← ht] using this
          have htsv : ts < (v.infos.get ⟨t, hlt2⟩).version := by simpa [hpt] using hptt
          rcases Nat.lt_or_ge t j with hlt | hge
          · have := hpg t j hlt2 hj hlt
            rw [← hje2] at hole
            omega
          · have hjeq : j = t := by omega
            subst hjeq
            rw [← hje2] at hole
            omega

/-- Concrete instantiation for C7 on a two-version store queried at ts 7. -/
theorem getTableInfo_returns_largest_le_witness :
    (SchemaStore.demoStore.deleteVersion ≤ 7 →
      SchemaStore.getTableInfo SchemaStore.demoStore 7 = .error .deleted) ∧
    (7 < SchemaStore.demoStore.deleteVersion →
      ((∀ it ∈ SchemaStore.demoStore.infos, 7 < it.version) →
        SchemaStore.getTableInfo SchemaStore.demoStore 7 = .error .noVersionFound) ∧
      (∀ it0 ∈ SchemaStore.demoStore.infos, it0.version ≤ 7 →
        ∃ best, best ∈ SchemaStore.demoStore.infos ∧ best.version ≤ 7 ∧
          SchemaStore.getTableInfo SchemaStore.demoStore 7 = .ok best.info ∧
          ∀ other ∈ SchemaStore.demoStore.infos,
            other.version ≤ 7 → other.version ≤ best.version)) :=
  getTableInfo_returns_largest_le SchemaStore.demoStore 7 rfl (by decide)


/-- C3: each controller operation (`AddOperator`, `removeReplicaSet`,
`pollQueueingOperator`) preserves the at-most-one-operator-per-DispatcherID
invariant, and `AddOperator` never installs a second operator for an id that is
already present. -/
theorem operator_singleton_invariant (oc : OpCtl.OCState) (op : OpCtl.Operator)
    (now : Nat) (fin : OpCtl.Operator → Bool) (h : OpCtl.OCInv oc) :
    OpCtl.OCInv (OpCtl.AddOperator oc op now).1 ∧
    OpCtl.OCInv (OpCtl.removeReplicaSet oc op).1 ∧
    OpCtl.OCInv (OpCtl.pollQueueingOperator oc now fin).1 ∧
    (∀ old, GoMap.mapLookup oc.operators op.opId = some old →
      OpCtl.AddOperator oc op now = (oc, [], false)) := by
  refine ⟨?_, ?_, ?_, ?_⟩
  · by_cases h1 : (GoMap.mapLookup oc.operators op.opId).isSome
    · simpa [OpCtl.AddOperator, h1] using h
    · by_cases h2 : op.opId ∈ oc.dbSpans
      · simp only [OpCtl.AddOperator, h1, h2, Bool.false_eq_true, if_false, not_true_eq_false,
          if_neg, ite_false, not_false_eq_true, if_true]
        exact GoMap.mapKeys_insert_nodup _ _ _ h
      · simpa [OpCtl.AddOperator, h1, h2] using h
  · cases hl : GoMap.mapLookup oc.operators op.opId with
    | some old =>
      simp only [OpCtl.removeReplicaSet, hl]
      exact GoMap.mapKeys_insert_nodup _ _ _ (GoMap.mapKeys_delete_nodup _ _ h)
    | none =>
      simp only [OpCtl.removeReplicaSet, hl]
      exact GoMap.mapKeys_insert_nodup _ _ _ h
  · cases hq : OpCtl.popMin oc.runningQueue with
    | none => simpa [OpCtl.pollQueueingOperator, hq] using h
    | some pair =>
      by_cases hf : fin pair.1.1
      · simp only [OpCtl.pollQueueingOperator, hq, hf, if_true]
        exact GoMap.mapKeys_delete_nodup _ _ h
      · by_cases htm : now < pair.1.2
        · simpa [OpCtl.pollQueueingOperator, hq, hf, htm] using h
        · simpa [OpCtl.pollQueueingOperator, hq, hf, htm] using h
  · intro old hl
    have h1 : (GoMap.mapLookup oc.operators op.opId).isSome := by simp [hl]
    simp [OpCtl.AddOperator, h1]

/-- Witness for C3 on a concrete controller holding one operator. -/
theorem operator_singleton_invariant_witness :
    OpCtl.OCInv (OpCtl.AddOperator OpCtl.demoOC OpCtl.demoOpNew 1000).1 ∧
    OpCtl.OCInv (OpCtl.removeReplicaSet OpCtl.demoOC OpCtl.demoOpNew).1 ∧
    OpCtl.OCInv (OpCtl.pollQueueingOperator OpCtl.demoOC 1000 (fun _ => false)).1 ∧
    (∀ old, GoMap.mapLookup OpCtl.demoOC.operators OpCtl.demoOpNew.opId = some old →
      OpCtl.AddOperator OpCtl.demoOC OpCtl.demoOpNew 1000 = (OpCtl.demoOC, [], false)) :=
  operator_singleton_invariant OpCtl.demoOC OpCtl.demoOpNew 1000 (fun _ => false) (by decide)

/-- C4: when a remove operator reaches `removeReplicaSet` while an operator for
the same id is live, the old operator receives `OnTaskRemoved` (and never
`PostFinish`), is removed from the map, and the remove operator replaces it. -/
theorem removeReplicaSet_supersedes (oc : OpCtl.OCState) (op old : OpCtl.Operator)
    (hk : op.kind = .removeKind)
    (hl : GoMap.mapLookup oc.operators op.opId = some old) :
    OpCtl.removeReplicaSet oc op =
      ({ oc with operators :=
          GoMap.mapInsert (GoMap.mapDelete oc.operators op.opId) op.opId op },
       [.onTaskRemoved old]) ∧
    OpCtl.OpEffect.postFinish old ∉ (OpCtl.removeReplicaSet oc op).2 ∧
    GoMap.mapLookup (OpCtl.removeReplicaSet oc op).1.operators op.opId = some op ∧
    GoMap.mapLookup (GoMap.mapDelete oc.operators op.opId) op.opId = none := by
  refine ⟨?_, ?_, ?_, ?_⟩
  · simp [OpCtl.removeReplicaSet, hl]
  · simp [OpCtl.removeReplicaSet, hl]
  · simp [OpCtl.removeReplicaSet, hl, GoMap.mapLookup_insert_self]
  · exact GoMap.mapLookup_delete_self _ _

/-- Witness for C4: the demo controller's live operator is superseded by a
remove operator with the same id. -/
theorem removeReplicaSet_supersedes_witness :
    OpCtl.removeReplicaSet OpCtl.demoOC OpCtl.demoOpRemove =
      ({ OpCtl.demoOC with operators :=
          (GoMap.mapInsert (GoMap.mapDelete OpCtl.demoOC.operators OpCtl.demoOpRemove.opId)
            OpCtl.demoOpRemove.opId OpCtl.demoOpRemove) },
       [.onTaskRemoved OpCtl.demoOpOld]) ∧
    OpCtl.OpEffect.postFinish OpCtl.demoOpOld ∉
      (OpCtl.removeReplicaSet OpCtl.demoOC OpCtl.demoOpRemove).2 ∧
    GoMap.mapLookup (OpCtl.removeReplicaSet OpCtl.demoOC OpCtl.demoOpRemove).1.operators
      OpCtl.demoOpRemove.opId = some OpCtl.demoOpRemove ∧
    GoMap.mapLookup (GoMap.mapDelete OpCtl.demoOC.operators OpCtl.demoOpRemove.opId)
      OpCtl.demoOpRemove.opId = none :=
  removeReplicaSet_supersedes OpCtl.demoOC OpCtl.demoOpRemove OpCtl.demoOpOld rfl (by decide)

/-- C5: `AddOperator` returns false and leaves the state unchanged on a
duplicate id or an id unknown to the replication DB; otherwise it installs the
operator, emits its `Start`, enqueues it, and returns true. -/
theorem addOperator_spec (oc : OpCtl.OCState) (op : OpCtl.Operator) (now : Nat) :
    ((∃ old, GoMap.mapLookup oc.operators op.opId = some old) →
      OpCtl.AddOperator oc op now = (oc, [], false)) ∧
    (GoMap.mapLookup oc.operators op.opId = none → op.opId ∉ oc.dbSpans →
      OpCtl.AddOperator oc op now = (oc, [], false)) ∧
    (GoMap.mapLookup oc.operators op.opId = none → op.opId ∈ oc.dbSpans →
      OpCtl.AddOperator oc op now =
        ({ oc with operators := GoMap.mapInsert oc.operators op.opId op,
                   runningQueue := oc.runningQueue ++ [(op, now)] },
         [.start op], true)) := by
  refine ⟨?_, ?_, ?_⟩
  · rintro ⟨old, hl⟩
    have h1 : (GoMap.mapLookup oc.operators op.opId).isSome := by simp [hl]
    simp [OpCtl.AddOperator, h1]
  · intro hl hmem
    have h1 : ¬ (GoMap.mapLookup oc.operators op.opId).isSome := by simp [hl]
    simp [OpCtl.AddOperator, h1, hmem]
  · intro hl hmem
    have h1 : ¬ (GoMap.mapLookup oc.operators op.opId).isSome := by simp [hl]
    simp [OpCtl.AddOperator, h1, hmem]

/-- Witness for C5: adding a fresh operator for a span the DB knows succeeds
and installs, starts, and enqueues it. -/
theorem addOperator_spec_witness :
    OpCtl.AddOperator OpCtl.demoOC OpCtl.demoOpNew 7 =
      ({ OpCtl.demoOC with
          operators := GoMap.mapInsert OpCtl.demoOC.operators
            OpCtl.demoOpNew.opId OpCtl.demoOpNew,
          runningQueue := OpCtl.demoOC.runningQueue ++ [(OpCtl.demoOpNew, 7)] },
       [.start OpCtl.demoOpNew], true) :=
  (addOperator_spec OpCtl.demoOC OpCtl.demoOpNew 7).2.2 (by decide) (by decide)


/-- Helper: when each scheduler honours the task budget, so does the chain. -/
theorem scheduleChain_length_le (fs : List (Nat → List Nat)) (n : Nat)
    (h : ∀ f ∈ fs, (f n).length ≤ n) : (Sup.scheduleChain fs n).length ≤ n := by
  induction fs with
  | nil => simp [Sup.scheduleChain]
  | cons f rest ih =>
    by_cases hf : (f n).length ≠ 0
    · rw [Sup.scheduleChain, if_pos hf]
      exact h f (List.mem_cons_self f rest)
    · rw [Sup.scheduleChain, if_neg hf]
      exact ih (fun g hg => h g (List.mem_cons_of_mem f hg))

/-- Helper: the chain result is empty or comes from the first scheduler in the
chain that returns a non-empty list. -/
theorem scheduleChain_first (fs : List (Nat → List Nat)) (n : Nat) :
    Sup.scheduleChain fs n = [] ∨
    ∃ pre f post, fs = pre ++ f :: post ∧ (∀ g ∈ pre, g n = []) ∧
      Sup.scheduleChain fs n = f n ∧ f n ≠ [] := by
  induction fs with
  | nil => exact Or.inl rfl
  | cons f rest ih =>
    by_cases hf : (f n).length ≠ 0
    · refine Or.inr ⟨[], f, rest, rfl, by simp, ?_, ?_⟩
      · rw [Sup.scheduleChain, if_pos hf]
      · simpa [List.length_eq_zero] using hf
    · have hfe : f n = [] := by
        rw [← List.length_eq_zero]
        omega
      rcases ih with h0 | ⟨pre, g, post, heq, hpre, hval, hne⟩
      · refine Or.inl ?_
        rw [Sup.scheduleChain, if_neg hf]
        exact h0
      · refine Or.inr ⟨f :: pre, g, post, by simp [heq], ?_, ?_, hne⟩
        · intro x hx
          rcases List.mem_cons.mp hx with h | h
          · rw [h]; exact hfe
          · exact hpre x h
        · rw [Sup.scheduleChain, if_neg hf]
          exact hval

/-- C9: `Supervisor.Schedule` produces no new tasks when not all captures are
initialized or the task budget `maxTaskConcurrency - len(runningTasks)` is
non-positive, returning only the running-task control messages; otherwise the
tasks come from the first scheduler in the chain returning a non-empty list,
and they respect the budget whenever every scheduler does. -/
theorem supervisor_schedule_admission (s s1 : Sup.Supervisor) (msgs : List Nat)
    (hchk : Sup.checkRunningTasks s = (s1, msgs)) :
    (Sup.checkAllCaptureInitialized s1 = false → Sup.Schedule s = (s1, msgs, [])) ∧
    ((s1.maxTaskConcurrency : Int) - (s1.runningTasks.length : Int) ≤ 0 →
      Sup.Schedule s = (s1, msgs, [])) ∧
    (Sup.checkAllCaptureInitialized s1 = true →
      0 < (s1.maxTaskConcurrency : Int) - (s1.runningTasks.length : Int) →
      Sup.Schedule s = (s1, msgs,
        Sup.scheduleChain s1.schedulers (s1.maxTaskConcurrency - s1.runningTasks.length)) ∧
      ((∀ f ∈ s1.schedulers,
          (f (s1.maxTaskConcurrency - s1.runningTasks.length)).length ≤
            s1.maxTaskConcurrency - s1.runningTasks.length) →
        (Sup.Schedule s).2.2.length ≤ s1.maxTaskConcurrency - s1.runningTasks.length) ∧
      ((Sup.Schedule s).2.2 = [] ∨
        ∃ pre f post, s1.schedulers = pre ++ f :: post ∧
          (∀ g ∈ pre, g (s1.maxTaskConcurrency - s1.runningTasks.length) = []) ∧
          (Sup.Schedule s).2.2 = f (s1.maxTaskConcurrency - s1.runningTasks.length) ∧
          f (s1.maxTaskConcurrency - s1.runningTasks.length) ≠ [])) := by
  have h1 : (Sup.checkRunningTasks s).1 = s1 := by rw [hchk]
  have h2 : (Sup.checkRunningTasks s).2 = msgs := by rw [hchk]
  refine ⟨?_, ?_, ?_⟩
  · intro hinit
    simp [Sup.Schedule, h1, h2, hinit]
  · intro hle
    by_cases hinit : Sup.checkAllCaptureInitialized s1 = false
    · simp [Sup.Schedule, h1, h2, hinit]
    · have hinit' : Sup.checkAllCaptureInitialized s1 = true := by
        simpa using hinit
      simp [Sup.Schedule, h1, h2, hinit', hle]
  · intro hinit hpos
    have hcond : ¬ ((s1.maxTaskConcurrency : Int) - (s1.runningTasks.length : Int) ≤ 0) := by
      omega
    have hsched : Sup.Schedule s = (s1, msgs,
        Sup.scheduleChain s1.schedulers (s1.maxTaskConcurrency - s1.runningTasks.length)) := by
      simp [Sup.Schedule, h1, h2, hinit, hcond]
    refine ⟨hsched, ?_, ?_⟩
    · intro hb
      rw [hsched]
      exact scheduleChain_length_le _ _ hb
    · rw [hsched]
      exact scheduleChain_first s1.schedulers _

/-- Witness for C9 on the demo supervisor: the Working running task is
collected and the chain's second scheduler supplies the tasks. -/
theorem supervisor_schedule_admission_witness :
    (Sup.checkAllCaptureInitialized Sup.demoSup1 = false →
      Sup.Schedule Sup.demoSup = (Sup.demoSup1, [42], [])) ∧
    ((Sup.demoSup1.maxTaskConcurrency : Int) - (Sup.demoSup1.runningTasks.length : Int) ≤ 0 →
      Sup.Schedule Sup.demoSup = (Sup.demoSup1, [42], [])) ∧
    (Sup.checkAllCaptureInitialized Sup.demoSup1 = true →
      0 < (Sup.demoSup1.maxTaskConcurrency : Int) - (Sup.demoSup1.runningTasks.length : Int) →
      Sup.Schedule Sup.demoSup = (Sup.demoSup1, [42],
        Sup.scheduleChain Sup.demoSup1.schedulers
          (Sup.demoSup1.maxTaskConcurrency - Sup.demoSup1.runningTasks.length)) ∧
      ((∀ f ∈ Sup.demoSup1.schedulers,
          (f (Sup.demoSup1.maxTaskConcurrency - Sup.demoSup1.runningTasks.length)).length ≤
            Sup.demoSup1.maxTaskConcurrency - Sup.demoSup1.runningTasks.length) →
        (Sup.Schedule Sup.demoSup).2.2.length ≤
          Sup.demoSup1.maxTaskConcurrency - Sup.demoSup1.runningTasks.length) ∧
      ((Sup.Schedule Sup.demoSup).2.2 = [] ∨
        ∃ pre f post, Sup.demoSup1.schedulers = pre ++ f :: post ∧
          (∀ g ∈ pre,
            g (Sup.demoSup1.maxTaskConcurrency - Sup.demoSup1.runningTasks.length) = []) ∧
          (Sup.Schedule Sup.demoSup).2.2 =
            f (Sup.demoSup1.maxTaskConcurrency - Sup.demoSup1.runningTasks.length) ∧
          f (Sup.demoSup1.maxTaskConcurrency - Sup.demoSup1.runningTasks.length) ≠ [])) :=
  supervisor_schedule_admission Sup.demoSup Sup.demoSup1 [42] rfl


/-- C1: scheduling a block event applies drops before adds; after S1 (drop All,
add (2,1) and (3,1)) the absent set has size 2, and after S2 (drop schema 1,
add (4,1)) it has size 1. -/
theorem scheduleBlockEvent_drop_then_add :
    Barrier.GetAbsentSize (Barrier.scheduleBlockEvent Barrier.s1Controller Barrier.s1Event) = 2 ∧
    Barrier.GetAbsentSize
      (Barrier.scheduleBlockEvent
        (Barrier.scheduleBlockEvent Barrier.s1Controller Barrier.s1Event)
        Barrier.s2Event) = 1 := by
  constructor
  · rfl
  · rfl

/-- C6: a block event with `UpdatedSchemas=[(table 1: schema 1 to 2)]` on a
present table reindexes it: schema 1 has no tasks, schema 2 has one, the span's
schemaID is 2, and the absent size is unchanged. -/
theorem scheduleBlockEvent_update_schema_id :
    Barrier.GetTasksBySchemaID
      (Barrier.scheduleBlockEvent Barrier.s1Controller Barrier.s6Event) 1 = [] ∧
    (Barrier.GetTasksBySchemaID
      (Barrier.scheduleBlockEvent Barrier.s1Controller Barrier.s6Event) 2).length = 1 ∧
    (Barrier.GetTasksByTableID
      (Barrier.scheduleBlockEvent Barrier.s1Controller Barrier.s6Event) 1).map
        (fun sp => sp.schemaID) = [2] ∧
    Barrier.GetAbsentSize
      (Barrier.scheduleBlockEvent Barrier.s1Controller Barrier.s6Event) = 1 := by
  refine ⟨rfl, rfl, rfl, rfl⟩

/-- C2: resend of a block event sends nothing when not selected or inside the
resend window; while the writer has not advanced it sends exactly one Write to
the writer with CommitTs the block ts; once advanced it sends exactly one pass
response whose single DispatcherStatus reuses the original influence type and
enumerates dispatcher ids only for Normal influence. -/
theorem resend_policy (now : Nat) (c : Barrier.ControllerState) (e : Barrier.BlockEvent) :
    (e.selected = false → Barrier.resend now c e = []) ∧
    (now < e.lastResendTime + Barrier.resendInterval → Barrier.resend now c e = []) ∧
    (e.selected = true → e.lastResendTime + Barrier.resendInterval ≤ now →
      e.writerDispatcherAdvanced = false →
      ∃ ds, Barrier.resend now c e =
          [{ changefeedID := e.cfID, dispatcherStatuses := [ds] }] ∧
        ds.action = some { action := .writeAction, CommitTs := e.blockTs } ∧
        ds.influencedDispatchers.DispatcherIDs = [e.writerDispatcher]) ∧
    (e.selected = true → e.lastResendTime + Barrier.resendInterval ≤ now →
      e.writerDispatcherAdvanced = true →
      ∃ ds, Barrier.resend now c e =
          [{ changefeedID := e.cfID, dispatcherStatuses := [ds] }] ∧
        ds.action = some { action := .passAction, CommitTs := e.blockTs } ∧
        ds.influencedDispatchers.influenceType = e.blockTables.influenceType ∧
        (¬ e.blockTables.influenceType = .normalType →
          ds.influencedDispatchers.DispatcherIDs = []) ∧
        (e.blockTables.influenceType = .normalType →
          ds.influencedDispatchers.DispatcherIDs =
            e.blockTables.TableIDs.flatMap
              (fun tid => (Barrier.GetTasksByTableID c tid).map (fun sp => sp.spanId)))) := by
  refine ⟨?_, ?_, ?_, ?_⟩
  · intro h
    simp [Barrier.resend, h]
  · intro h
    by_cases hs : e.selected = false
    · simp [Barrier.resend, hs]
    · simp only [Bool.not_eq_false] at hs
      simp [Barrier.resend, hs, h]
  · intro hs ht hw
    refine ⟨⟨⟨Barrier.InfluenceType.normalType, [e.writerDispatcher], 0⟩, some ⟨Barrier.BAction.writeAction, e.blockTs⟩⟩, ?_, rfl, rfl⟩
    simp [Barrier.resend, hs, hw, Nat.not_lt.mpr ht]
  · intro hs ht hw
    cases hbt : e.blockTables.influenceType with
    | normalType =>
      refine ⟨⟨⟨Barrier.InfluenceType.normalType, e.blockTables.TableIDs.flatMap (fun tid => (Barrier.GetTasksByTableID c tid).map (fun sp => sp.spanId)), e.blockTables.SchemaID⟩, some ⟨Barrier.BAction.passAction, e.blockTs⟩⟩, ?_, rfl, rfl, ?_, ?_⟩
      · simp [Barrier.resend, hs, hw, Nat.not_lt.mpr ht, hbt]
      · intro hcontra
        exact absurd rfl hcontra
      · intro _
        rfl
    | allType =>
      refine ⟨⟨⟨Barrier.InfluenceType.allType, [], e.blockTables.SchemaID⟩, some ⟨Barrier.BAction.passAction, e.blockTs⟩⟩, ?_, rfl, rfl, ?_, ?_⟩
      · simp [Barrier.resend, hs, hw, Nat.not_lt.mpr ht, hbt]
      · intro _
        rfl
      · intro hcontra
        exact absurd hcontra (by simp)
    | dbType =>
      refine ⟨⟨⟨Barrier.InfluenceType.dbType, [], e.blockTables.SchemaID⟩, some ⟨Barrier.BAction.passAction, e.blockTs⟩⟩, ?_, rfl, rfl, ?_, ?_⟩
      · simp [Barrier.resend, hs, hw, Nat.not_lt.mpr ht, hbt]
      · intro _
        rfl
      · intro hcontra
        exact absurd hcontra (by simp)

/-- Witness for C2: the pass broadcast of the resend witness event enumerates
the dispatchers of tables 1 and 2. -/
theorem resend_policy_witness :
    ∃ ds, Barrier.resend 1000 Barrier.resendController Barrier.resendEvent =
        [{ changefeedID := Barrier.resendEvent.cfID, dispatcherStatuses := [ds] }] ∧
      ds.action = some { action := .passAction, CommitTs := Barrier.resendEvent.blockTs } ∧
      ds.influencedDispatchers.influenceType =
        Barrier.resendEvent.blockTables.influenceType ∧
      (¬ Barrier.resendEvent.blockTables.influenceType = .normalType →
        ds.influencedDispatchers.DispatcherIDs = []) ∧
      (Barrier.resendEvent.blockTables.influenceType = .normalType →
        ds.influencedDispatchers.DispatcherIDs =
          Barrier.resendEvent.blockTables.TableIDs.flatMap
            (fun tid => (Barrier.GetTasksByTableID Barrier.resendController tid).map
              (fun sp => sp.spanId))) :=
  (resend_policy 1000 Barrier.resendController Barrier.resendEvent).2.2.2 rfl (by decide) rfl
